import Mathlib

/-!
Verification of the skydive hardware-tree reclassifier (`agent/host.go`)
and the ceph topology synchronizer (`topology/probes/ceph/*.go`).
-/

/-- A generic JSON-like value, as produced by Go's `json.Unmarshal` into
`map[string]interface{}`.  `obj` models `map[string]interface{}` (as an
association list), `arr` models `[]interface{}`, and `classList` models the
Go runtime type `[]map[string]interface{}` of single-key maps `{id: child}`
that `parseLshw` creates when relocating a child under its class name.
Keeping `classList` distinct from `arr` mirrors the Go dynamic-type
distinction that the source's type switches and type assertions observe. -/
inductive JValue where
  | str (s : String)
  | num (n : Int)
  | bool (b : Bool)
  | null
  | arr (elems : List JValue)
  | obj (fields : List (String × JValue))
  | classList (entries : List (String × JValue))
deriving Repr

/-- First-match lookup in a field map (Go maps have unique keys). -/
def lookupField (k : String) : List (String × JValue) → Option JValue
  | [] => none
  | (k2, v) :: rest => if k2 = k then some v else lookupField k rest

mutual

/-- Depth of a JSON value: scalars have depth 0, containers one more than
their deepest member. -/
def valDepth : JValue → Nat
  | JValue.str _ => 0
  | JValue.num _ => 0
  | JValue.bool _ => 0
  | JValue.null => 0
  | JValue.arr elems => 1 + elemsDepth elems
  | JValue.obj fields => 1 + fieldsDepth fields
  | JValue.classList entries => 1 + fieldsDepth entries

/-- Depth of a list of array elements. -/
def elemsDepth : List JValue → Nat
  | [] => 0
  | v :: rest => max (valDepth v) (elemsDepth rest)

/-- Depth of a field map: the deepest value it holds. -/
def fieldsDepth : List (String × JValue) → Nat
  | [] => 0
  | kv :: rest => max (valDepth kv.2) (fieldsDepth rest)

end

/-- Replace the binding of `k` (if any) by `v`, else append it.  Models a
Go map store `items[k] = v`. -/
def setField (k : String) (v : JValue) : List (String × JValue) → List (String × JValue)
  | [] => [(k, v)]
  | (k2, v2) :: rest => if k2 = k then (k, v) :: rest else (k2, v2) :: setField k v rest

/-- Remove every binding of `k`.  Models the Go map `delete(items, k)`. -/
def eraseField (k : String) : List (String × JValue) → List (String × JValue)
  | [] => []
  | (k2, v2) :: rest => if k2 = k then eraseField k rest else (k2, v2) :: eraseField k rest

/-- Embeds `extractClassAndID` of `agent/host.go`.  The Go loop walks the
child map in (random) map order, records the values of the string-valued
keys `class` and `id`, and returns them as soon as both are non-empty;
after a full pass it returns `("", "")`.  Since a Go map binds each key at
most once, the outcome is independent of iteration order and equals: the
pair of both values when both are present, strings and non-empty, and
`("", "")` otherwise. -/
def extractClassAndID (child : List (String × JValue)) : String × String :=
  let foundClass := match lookupField "class" child with
    | some (JValue.str s) => s
    | _ => ""
  let foundID := match lookupField "id" child with
    | some (JValue.str s) => s
    | _ => ""
  if foundClass.length > 0 && foundID.length > 0 then (foundClass, foundID) else ("", "")

/-- One relocation step of `parseLshw`: the Go statements
`if items[class] == nil { items[class] = []map[string]interface{}{} }` and
`items[class] = append(items[class].([]map[string]interface{}),
map[string]interface{}{ID: child})`.  A missing key (or, as with any
JSON `null`, a nil interface) starts a fresh class list; an existing class
list is appended to; any other existing value makes the Go type assertion
`.([]map[string]interface{})` panic, which we model as `none`. -/
def relocate (items : List (String × JValue)) (cls id : String)
    (child : List (String × JValue)) : Option (List (String × JValue)) :=
  match lookupField cls items with
  | none => some (setField cls (JValue.classList [(id, JValue.obj child)]) items)
  | some JValue.null => some (setField cls (JValue.classList [(id, JValue.obj child)]) items)
  | some (JValue.classList xs) =>
      some (setField cls (JValue.classList (xs ++ [(id, JValue.obj child)])) items)
  | some _ => none

/-- The inner `for _, child := range ...` loop of `parseLshw`, parameterized
by the recursive call `parse` applied to each relocated child.  Children
that are not maps, or whose class/id extraction fails, are skipped.  For a
relocated child the Go code appends `{ID: child}` under the class key (the
appended map aliases the child, so it holds the recursively parsed child),
executes `delete(items, "children")`, and recurses into the child.
`some none` models a Go panic aborting the program; the outer `none` is
only produced when `parse` reports an exhausted recursion budget. -/
def processChildrenLoop
    (parse : List (String × JValue) → Option (Option (List (String × JValue)))) :
    List (String × JValue) → List JValue → Option (Option (List (String × JValue)))
  | items, [] => some (some items)
  | items, JValue.obj cf :: rest =>
    if (extractClassAndID cf).1.length > 0 then
      match parse cf with
      | none => none
      | some none => some none
      | some (some cf2) =>
        match relocate items (extractClassAndID cf).1 (extractClassAndID cf).2 cf2 with
        | none => some none
        | some items2 => processChildrenLoop parse (eraseField "children" items2) rest
    else processChildrenLoop parse items rest
  | items, JValue.str _ :: rest => processChildrenLoop parse items rest
  | items, JValue.num _ :: rest => processChildrenLoop parse items rest
  | items, JValue.bool _ :: rest => processChildrenLoop parse items rest
  | items, JValue.null :: rest => processChildrenLoop parse items rest
  | items, JValue.arr _ :: rest => processChildrenLoop parse items rest
  | items, JValue.classList _ :: rest => processChildrenLoop parse items rest

/-- Embeds `parseLshw` of `agent/host.go`, with an explicit recursion
budget `fuel` standing for the Go call stack (the source recursion is on
each relocated child, a strict subtree, so a budget of the tree depth
suffices — proved with the termination claim below).  `none` means the budget ran out;
`some none` models a Go runtime panic; `some (some r)` is the transformed
field map.  The Go outer loop ranges over all keys of `items` but acts
only on the key `"children"` when it holds a `[]interface{}` (every other
key, including the `[]map[string]interface{}` class lists this very loop
inserts, falls through the type switch), so it is equivalent to processing
the `children` binding alone. -/
def parseLshwF : Nat → List (String × JValue) → Option (Option (List (String × JValue)))
  | 0, _ => none
  | fuel + 1, items =>
    match lookupField "children" items with
    | some (JValue.arr cs) => processChildrenLoop (parseLshwF fuel) items cs
    | some (JValue.str _) => some (some items)
    | some (JValue.num _) => some (some items)
    | some (JValue.bool _) => some (some items)
    | some JValue.null => some (some items)
    | some (JValue.obj _) => some (some items)
    | some (JValue.classList _) => some (some items)
    | none => some (some items)

/-- Runs `parseLshwF` with the always-sufficient budget `fieldsDepth items + 1`
(sufficiency is proved with the termination claim below): `none` is a Go
panic, `some r` the transformed map. -/
def parseLshw (items : List (String × JValue)) : Option (List (String × JValue)) :=
  (parseLshwF (fieldsDepth items + 1) items).getD none

/-- The class under which `parseLshw` would relocate a child: empty unless
the child is a map with non-empty string `class` and `id` fields. -/
def relocClass (c : JValue) : String :=
  match c with
  | JValue.obj cf => (extractClassAndID cf).1
  | _ => ""

/-- The sample tree of the specification:
`{children: [{class:"disk", id:"d1", foo:1}, {other:2}]}`. -/
def c1input : List (String × JValue) :=
  [("children", JValue.arr
    [JValue.obj [("class", JValue.str "disk"), ("id", JValue.str "d1"), ("foo", JValue.num 1)],
     JValue.obj [("other", JValue.num 2)]])]

/-- What the code actually produces on `c1input`: the identified child is
relocated under `disk`, and the whole `children` binding is deleted, taking
the unidentified child `{other:2}` with it. -/
def c1output : List (String × JValue) :=
  [("disk", JValue.classList
    [("d1", JValue.obj [("class", JValue.str "disk"), ("id", JValue.str "d1"), ("foo", JValue.num 1)])])]

theorem valDepth_le_of_lookup (k : String) (v : JValue) :
    ∀ items : List (String × JValue), lookupField k items = some v →
      valDepth v ≤ fieldsDepth items := by
  intro items
  induction items with
  | nil => intro h; simp [lookupField] at h
  | cons kv rest ih =>
    obtain ⟨k2, v2⟩ := kv
    intro h
    rw [lookupField] at h
    by_cases hk : k2 = k
    · simp only [if_pos hk, Option.some.injEq] at h
      subst h
      exact le_max_left _ _
    · simp only [if_neg hk] at h
      exact le_trans (ih h) (le_max_right _ _)

theorem valDepth_le_of_mem (c : JValue) :
    ∀ cs : List JValue, c ∈ cs → valDepth c ≤ elemsDepth cs := by
  intro cs
  induction cs with
  | nil => intro h; simp at h
  | cons c2 rest ih =>
    intro h
    rw [elemsDepth]
    rcases List.mem_cons.mp h with h1 | h2
    · subst h1; exact le_max_left _ _
    · exact le_trans (ih h2) (le_max_right _ _)

theorem processChildrenLoop_congr
    (p1 p2 : List (String × JValue) → Option (Option (List (String × JValue))))
    (cs : List JValue)
    (h : ∀ cf : List (String × JValue), JValue.obj cf ∈ cs → p1 cf = p2 cf ∧ p1 cf ≠ none) :
    ∀ items, processChildrenLoop p1 items cs = processChildrenLoop p2 items cs ∧
      processChildrenLoop p1 items cs ≠ none := by
  induction cs with
  | nil => intro items; exact ⟨rfl, by simp [processChildrenLoop]⟩
  | cons c rest ih =>
    intro items
    have hrest : ∀ cf : List (String × JValue), JValue.obj cf ∈ rest → p1 cf = p2 cf ∧ p1 cf ≠ none :=
      fun cf hm => h cf (List.mem_cons_of_mem _ hm)
    cases c with
    | obj cf =>
      have hc := h cf (List.mem_cons_self _ _)
      rw [processChildrenLoop, processChildrenLoop]
      by_cases hcl : (extractClassAndID cf).1.length > 0
      · rw [if_pos hcl, if_pos hcl, ← hc.1]
        rcases hp : p1 cf with _ | r
        · exact absurd hp hc.2
        · rcases r with _ | cf2
          · exact ⟨rfl, by simp⟩
          · dsimp only
            rcases relocate items (extractClassAndID cf).1 (extractClassAndID cf).2 cf2 with _ | items2
            · exact ⟨rfl, by simp⟩
            · exact ih hrest _
      · rw [if_neg hcl, if_neg hcl]
        exact ih hrest _
    | str s => rw [processChildrenLoop, processChildrenLoop]; exact ih hrest _
    | num n => rw [processChildrenLoop, processChildrenLoop]; exact ih hrest _
    | bool b => rw [processChildrenLoop, processChildrenLoop]; exact ih hrest _
    | null => rw [processChildrenLoop, processChildrenLoop]; exact ih hrest _
    | arr es => rw [processChildrenLoop, processChildrenLoop]; exact ih hrest _
    | classList es => rw [processChildrenLoop, processChildrenLoop]; exact ih hrest _

theorem parseLshwF_stable_aux :
    ∀ d : Nat, ∀ (items : List (String × JValue)) (fuel : Nat), fieldsDepth items = d →
      d < fuel →
      parseLshwF fuel items = parseLshwF (d + 1) items ∧ parseLshwF fuel items ≠ none := by
  intro d
  induction d using Nat.strong_induction_on with
  | _ d ih =>
    intro items fuel hd hf
    obtain ⟨a, rfl⟩ : ∃ a, fuel = a + 1 := ⟨fuel - 1, by omega⟩
    rw [parseLshwF, parseLshwF]
    rcases hcl : lookupField "children" items with _ | v
    · exact ⟨rfl, by simp⟩
    · cases v with
      | arr cs =>
        dsimp only
        apply processChildrenLoop_congr
        intro cf hm
        have hb1 : valDepth (JValue.arr cs) ≤ d := hd ▸ valDepth_le_of_lookup _ _ _ hcl
        have hb2 : valDepth (JValue.obj cf) ≤ elemsDepth cs := valDepth_le_of_mem _ _ hm
        rw [valDepth] at hb1
        rw [valDepth] at hb2
        have hcf2 : fieldsDepth cf + 2 ≤ d := by omega
        have e1 := ih (fieldsDepth cf) (by omega) cf a rfl (by omega)
        have e2 := ih (fieldsDepth cf) (by omega) cf d rfl (by omega)
        exact ⟨e1.1.trans e2.1.symm, e1.2⟩
      | str s => exact ⟨rfl, by simp⟩
      | num n => exact ⟨rfl, by simp⟩
      | bool b => exact ⟨rfl, by simp⟩
      | null => exact ⟨rfl, by simp⟩
      | obj fs => exact ⟨rfl, by simp⟩
      | classList es => exact ⟨rfl, by simp⟩

theorem processChildrenLoop_all_skip
    (parse : List (String × JValue) → Option (Option (List (String × JValue))))
    (cs : List JValue) (h : ∀ c ∈ cs, relocClass c = "") :
    ∀ items, processChildrenLoop parse items cs = some (some items) := by
  induction cs with
  | nil => intro items; rfl
  | cons c rest ih =>
    intro items
    have hrest : ∀ c ∈ rest, relocClass c = "" := fun c hm => h c (List.mem_cons_of_mem _ hm)
    have hc := h c (List.mem_cons_self _ _)
    cases c with
    | obj cf =>
      rw [relocClass] at hc
      rw [processChildrenLoop, if_neg (by simp [hc])]
      exact ih hrest _
    | str s => rw [processChildrenLoop]; exact ih hrest _
    | num n => rw [processChildrenLoop]; exact ih hrest _
    | bool b => rw [processChildrenLoop]; exact ih hrest _
    | null => rw [processChildrenLoop]; exact ih hrest _
    | arr es => rw [processChildrenLoop]; exact ih hrest _
    | classList es => rw [processChildrenLoop]; exact ih hrest _

/-- C1: counterexample.  On the spec's own sample tree
`{children: [{class:"disk", id:"d1", foo:1}, {other:2}]}` the transform
yields `{disk: [{d1: {...}}]}` with NO `children` binding at all: the
relocation executes `delete(items, "children")`, which drops the entire
original sequence, so the unidentified child `{other:2}` does not remain,
contradicting the claim's `children: [{other:2}]`. -/
theorem c1_counterexample :
    parseLshw c1input = some c1output ∧
      (parseLshw c1input).map (lookupField "children") = some none :=
  ⟨rfl, rfl⟩

/-- C1 (amended): a child with both non-empty `class` and `id` is removed
and re-inserted under its class value as `{id: child}`, but relocating any
child deletes the node's entire `children` binding, so siblings lacking
`class` or `id` are dropped rather than kept; the original `children`
sequence survives only when no child at all is relocated (first conjunct);
on the sample tree the result holds `disk: [{d1: child}]` and no
`children` binding (second and third conjuncts). -/
theorem c1_amended (items : List (String × JValue)) (cs : List JValue)
    (h1 : lookupField "children" items = some (JValue.arr cs))
    (h2 : ∀ c ∈ cs, relocClass c = "") :
    parseLshw items = some items ∧ parseLshw c1input = some c1output ∧
      lookupField "children" c1output = none := by
  refine ⟨?_, rfl, rfl⟩
  unfold parseLshw
  rw [parseLshwF, h1]
  dsimp only
  rw [processChildrenLoop_all_skip _ _ h2]
  rfl

/-- C1: witness for `c1_amended` at the concrete tree
`{children: [{other: 2}]}` (its only child lacks `class`/`id`). -/
theorem c1_amended_wit :
    lookupField "children" [("children", JValue.arr [JValue.obj [("other", JValue.num 2)]])]
        = some (JValue.arr [JValue.obj [("other", JValue.num 2)]]) ∧
      parseLshw [("children", JValue.arr [JValue.obj [("other", JValue.num 2)]])]
        = some [("children", JValue.arr [JValue.obj [("other", JValue.num 2)]])] :=
  ⟨rfl, (c1_amended [("children", JValue.arr [JValue.obj [("other", JValue.num 2)]])]
    [JValue.obj [("other", JValue.num 2)]] rfl (by decide)).1⟩

/-- C9: `parseLshw` terminates on every finite tree: a recursion budget of
`fieldsDepth items` levels (strictly more than the depth, i.e. depth < fuel)
always suffices and yields the budget-free result (first conjunct), and a
node without a `children` binding is a leaf of the transform, returned
unchanged (second conjunct). -/
theorem c9_termination (items : List (String × JValue)) (fuel : Nat)
    (h : fieldsDepth items < fuel) :
    parseLshwF fuel items = some (parseLshw items) ∧
      (lookupField "children" items = none → parseLshw items = some items) := by
  constructor
  · have h1 := parseLshwF_stable_aux (fieldsDepth items) items fuel rfl h
    have h2 := parseLshwF_stable_aux (fieldsDepth items) items (fieldsDepth items + 1) rfl
      (Nat.lt_succ_self _)
    rcases hx : parseLshwF (fieldsDepth items + 1) items with _ | r
    · exact absurd hx h2.2
    · rw [h1.1, hx]
      unfold parseLshw
      rw [hx]
      rfl
  · intro hnone
    unfold parseLshw
    rw [parseLshwF, hnone]
    rfl

/-- C9: witness for `c9_termination` on the sample tree with budget 4. -/
theorem c9_termination_wit :
    fieldsDepth c1input < 4 ∧ parseLshwF 4 c1input = some (parseLshw c1input) :=
  ⟨by decide, (c9_termination c1input 4 (by decide)).1⟩

/-- Embeds the `OSD` struct of `topology/probes/ceph/osd.go` (one record of
`ceph osd metadata`); all fields are carried because the gob-encoded blob —
and hence the ledger's string comparison — covers the whole record. -/
structure OSD where
  ID : Int
  Arch : String
  BackAddr : String
  BackIface : String
  Bluefs : String
  BluefsDbAccessMode : String
  BluefsDbBlockSize : String
  BluefsDbDev : String
  BluefsDbDevNode : String
  BluefsDbDriver : String
  BluefsDbModel : String
  BluefsDbPartitionPath : String
  BluefsDbRotational : String
  BluefsDbSize : String
  BluefsDbType : String
  BluefsSingleSharedDevice : String
  BluestoreBdevAccessMode : String
  BluestoreBdevBlockSize : String
  BluestoreBdevDev : String
  BluestoreBdevDevNode : String
  BluestoreBdevDriver : String
  BluestoreBdevModel : String
  BluestoreBdevPartitionPath : String
  BluestoreBdevRotational : String
  BluestoreBdevSize : String
  BluestoreBdevType : String
  CephVersion : String
  CPU : String
  DefaultDeviceClass : String
  Distro : String
  DistroDescription : String
  DistroVersion : String
  FrontAddr : String
  FrontIface : String
  HbBackAddr : String
  HbFrontAddr : String
  Hostname : String
  JournalRotational : String
  KernelDescription : String
  KernelVersion : String
  MemSwapKb : String
  MemTotalKb : String
  Os : String
  OsdData : String
  OsdObjectstore : String
  Rotational : String
deriving Repr, DecidableEq

/-- An `OSD` record with zero/empty fields, for building concrete inputs. -/
def emptyOSD : OSD :=
  { ID := 0, Arch := "", BackAddr := "", BackIface := "", Bluefs := ""
  , BluefsDbAccessMode := "", BluefsDbBlockSize := "", BluefsDbDev := ""
  , BluefsDbDevNode := "", BluefsDbDriver := "", BluefsDbModel := ""
  , BluefsDbPartitionPath := "", BluefsDbRotational := "", BluefsDbSize := ""
  , BluefsDbType := "", BluefsSingleSharedDevice := "", BluestoreBdevAccessMode := ""
  , BluestoreBdevBlockSize := "", BluestoreBdevDev := "", BluestoreBdevDevNode := ""
  , BluestoreBdevDriver := "", BluestoreBdevModel := "", BluestoreBdevPartitionPath := ""
  , BluestoreBdevRotational := "", BluestoreBdevSize := "", BluestoreBdevType := ""
  , CephVersion := "", CPU := "", DefaultDeviceClass := "", Distro := ""
  , DistroDescription := "", DistroVersion := "", FrontAddr := "", FrontIface := ""
  , HbBackAddr := "", HbFrontAddr := "", Hostname := "", JournalRotational := ""
  , KernelDescription := "", KernelVersion := "", MemSwapKb := "", MemTotalKb := ""
  , Os := "", OsdData := "", OsdObjectstore := "", Rotational := "" }

/-- Embeds the `MON` struct of `topology/probes/ceph/mon.go` (one record of
`ceph mon metadata`). -/
structure MON where
  Name : String
  Addr : String
  Arch : String
  CephVersion : String
  CPU : String
  Distro : String
  DistroDescription : String
  DistroVersion : String
  Hostname : String
  KernelDescription : String
  KernelVersion : String
  MemSwapKb : String
  MemTotalKb : String
  Os : String
deriving Repr, DecidableEq

/-- A `MON` record with empty fields, for building concrete inputs. -/
def emptyMON : MON :=
  { Name := "", Addr := "", Arch := "", CephVersion := "", CPU := ""
  , Distro := "", DistroDescription := "", DistroVersion := "", Hostname := ""
  , KernelDescription := "", KernelVersion := "", MemSwapKb := "", MemTotalKb := ""
  , Os := "" }

/-- Embeds the `CLUSTER` struct of `topology/probes/ceph/ceph.go` (output of
`ceph -s`).  Of its many health/map payload fields the analyzer reads only
`Fsid` (the cluster fingerprint used as ledger identity); the unread payload
is elided from the embedding. -/
structure CLUSTER where
  Fsid : String
deriving Repr, DecidableEq

/-- An attribute blob as stored by the agent collectors: the gob-encoded,
base64-rendered snapshot.  Gob encoding of a fixed Go type is deterministic
and injective, so string equality of blobs coincides with equality of the
decoded values; we therefore carry the decoded value in `ok`.  `empty` is
the empty string (the Go zero value a map read yields for an absent ledger
key, and what the event handlers store to clear an entry); `bad` stands for
any other string that fails base64 or gob decoding, tagged so that distinct
undecodable strings stay distinguishable. -/
inductive Blob (α : Type) where
  | empty
  | ok (val : α)
  | bad (tag : Nat)
deriving Repr, DecidableEq

/-- Decoding an attribute blob: the `base64.StdEncoding.DecodeString` plus
`gob.Decode` pipeline; `none` models either failure branch. -/
def decodeBlob {α : Type} : Blob α → Option α
  | Blob.ok v => some v
  | Blob.empty => none
  | Blob.bad _ => none

/-- A Go `map[string]string` ledger keyed by cluster fsid, as an association
list; absent keys read as the zero value `Blob.empty` (Go's `""`). -/
def ledgerGet {α : Type} (l : List (String × Blob α)) (k : String) : Blob α :=
  match l with
  | [] => Blob.empty
  | (k2, v) :: rest => if k2 = k then v else ledgerGet rest k

/-- Ledger store `l[k] = v`: replace the first binding of `k`, else append. -/
def ledgerSet {α : Type} (l : List (String × Blob α)) (k : String) (v : Blob α) :
    List (String × Blob α) :=
  match l with
  | [] => [(k, v)]
  | (k2, v2) :: rest => if k2 = k then (k, v) :: rest else (k2, v2) :: ledgerSet rest k v

theorem ledgerGet_set {α : Type} (l : List (String × Blob α)) (k k2 : String) (v : Blob α) :
    ledgerGet (ledgerSet l k v) k2 = if k = k2 then v else ledgerGet l k2 := by
  induction l with
  | nil => simp [ledgerSet, ledgerGet]
  | cons kv rest ih =>
    obtain ⟨k3, v3⟩ := kv
    by_cases h3 : k3 = k
    · subst h3
      simp only [ledgerSet, if_pos rfl, ledgerGet]
      by_cases h : k3 = k2 <;> simp [h]
    · simp only [ledgerSet, if_neg h3, ledgerGet, ih]
      by_cases h2 : k3 = k2
      · have hk : ¬ k = k2 := fun e => h3 (h2.trans e.symm)
        simp [h2, hk]
      · simp [h2]

/-- A pre-existing interface/device node owned by the graph collaborator;
the synchronizer only looks these up (by `Name`, or by the device/IP/encap
filter) and links to them.  `IPV4` carries the node's CIDR addresses. -/
structure Iface where
  Id : String
  Name : String
  «Type» : String
  EncapType : String
  IPV4 : List String
deriving Repr, DecidableEq

/-- A pre-existing graph node as consulted by `LookupFirstNode` (matched on
`Name` and `Type`), together with its children as consulted by
`LookupFirstChild`. -/
structure Host where
  Id : String
  Name : String
  «Type» : String
  children : List Iface
deriving Repr, DecidableEq

/-- The pre-existing graph contents the synchronizer reads (an external
collaborator: it is looked up, never created here). -/
structure Env where
  hosts : List Host
deriving Repr, DecidableEq

/-- Embeds `p.graph.LookupFirstNode(graph.Metadata{"Name": h, "Type": "host"})`. -/
def envLookupHost (env : Env) (h : String) : Option Host :=
  env.hosts.find? (fun x => x.Name = h && x.«Type» = "host")

/-- Embeds `p.graph.LookupFirstChild(lookupNode, graph.Metadata{"Name": n})`. -/
def findChildByName (host : Host) (n : String) : Option Iface :=
  host.children.find? (fun i => i.Name = n)

/-- Split a character list at every occurrence of `sep` (the accumulator
holds the current chunk reversed); the character-level equivalent of Go's
`strings.Split`. -/
def splitChars (sep : Char) : List Char → List Char → List (List Char)
  | [], acc => [acc.reverse]
  | c :: rest, acc =>
    if c = sep then acc.reverse :: splitChars sep rest []
    else splitChars sep rest (c :: acc)

/-- Parse a non-empty all-digit character list as a decimal number. -/
def natFromDigits (cs : List Char) : Option Nat :=
  if cs ≠ [] ∧ cs.all Char.isDigit then
    some (cs.foldl (fun acc c => acc * 10 + (c.toNat - 48)) 0)
  else none

/-- Dotted-quad IPv4 parser on characters: `a.b.c.d` with each component a
decimal in 0..255, to a 32-bit value. -/
def parseIPv4Chars (cs : List Char) : Option Nat :=
  match (splitChars '.' cs []).mapM natFromDigits with
  | some [a, b, c, d] =>
      if a ≤ 255 && b ≤ 255 && c ≤ 255 && d ≤ 255 then
        some (((a * 256 + b) * 256 + c) * 256 + d)
      else none
  | _ => none

/-- Dotted-quad IPv4 parser on strings. -/
def parseIPv4 (s : String) : Option Nat :=
  parseIPv4Chars s.data

/-- Modelled from the spec: the graph collaborator's IPv4 range filter
(`filters.NewIPV4RangeFilter`, not under `src/`) — "whose IPv4 range
contains that address".  An interface CIDR `a.b.c.d/m` contains `ip` when
both lie in the same `/m` network. -/
def cidrContains (cidr : String) (ip : Nat) : Bool :=
  match splitChars '/' cidr.data [] with
  | [a, m] =>
    match parseIPv4Chars a, natFromDigits m with
    | some base, some mask =>
        mask ≤ 32 && (base / 2 ^ (32 - mask) = ip / 2 ^ (32 - mask))
    | _, _ => false
  | _ => false

/-- Modelled from the spec: the element filter `graphMon` builds — children
of the host node of `Type` "device", whose IPv4 range contains the
monitor's address, excluding `EncapType` "loopback".  The monitor address
is taken as a host-scope `/32`, so containment degenerates to membership of
the single address in the interface's range; a monitor address that is not
a parseable dotted quad matches nothing (the Go filter constructor's error
is discarded). -/
def monIfaceMatch (i : Iface) (ip : Option Nat) : Bool :=
  i.«Type» = "device" &&
    (match ip with
     | some v => i.IPV4.any (fun c => cidrContains c v)
     | none => false) &&
    !(i.EncapType = "loopback")

/-- Modelled from the source regexp
`([0-9]*.[0-9]*.[0-9]*.[0-9]*):[0-9]*(/[0-9]*)` applied by `graphMon` to
`mon.Addr`: on addresses of the claim's shape `ip:port/nonce` it yields the
IP part before the colon (the Go code then fails when the first capture is
empty or the pattern, including the `/nonce` group, does not match). -/
def extractMonIP (addr : String) : Option String :=
  match splitChars ':' addr.data [] with
  | [ipPart, rest] =>
    match splitChars '/' rest [] with
    | [port, nonce] =>
      if port.all Char.isDigit && nonce.all Char.isDigit && ipPart.length > 0 then
        some (String.mk ipPart)
      else none
    | _ => none
  | _ => none

/-- The payload nested under the `"Ceph"` metadata key of an object node. -/
inductive CephPayload where
  | osd (o : OSD)
  | mon (m : MON)
deriving Repr, DecidableEq

/-- Metadata of an object node created by the synchronizer: the manager
tag, component-type tag, display name and the full decoded record. -/
structure NodeMeta where
  Manager : String
  «Type» : String
  Name : String
  payload : CephPayload
deriving Repr, DecidableEq

/-- Metadata of an edge created by the synchronizer: either the ownership
link `topology.AddOwnershipLink`, or a socket link with the observed
address and (for OSDs) a front/back relation tag. -/
inductive EdgeMeta where
  | ownership
  | socket (address : String) (relationType : Option String)
deriving Repr, DecidableEq

/-- An edge record `(src, dst, metadata)` by node identifier. -/
structure GEdge where
  src : String
  dst : String
  meta : EdgeMeta
deriving Repr, DecidableEq

/-- The nodes and edges this probe has created in the shared graph;
`p.graph.NewNode` appends a `(identifier, metadata)` entry, the link
helpers append edges. -/
structure GraphState where
  nodes : List (String × NodeMeta)
  edges : List GEdge
deriving Repr, DecidableEq

/-- The empty graph effect, for concrete runs. -/
def gEmpty : GraphState := { nodes := [], edges := [] }

/-- Embeds `p.graph.NewNode(graph.Identifier(name), metadata)`. -/
def addNode (g : GraphState) (name : String) (meta : NodeMeta) : GraphState :=
  { g with nodes := g.nodes ++ [(name, meta)] }

/-- Embeds `topology.AddOwnershipLink(p.graph, parent, child, nil)`. -/
def addOwnershipLink (g : GraphState) (parent child : String) : GraphState :=
  { g with edges := g.edges ++ [{ src := parent, dst := child, meta := EdgeMeta.ownership }] }

/-- Embeds `p.graph.Link(a, b, metadata)`. -/
def addLink (g : GraphState) (a b : String) (m : EdgeMeta) : GraphState :=
  { g with edges := g.edges ++ [{ src := a, dst := b, meta := m }] }

/-- Embeds `fmt.Sprintf("osd.%d", osd.ID)`. -/
def osdDisplayName (osd : OSD) : String := "osd." ++ toString osd.ID

/-- Embeds `fmt.Sprintf("%s_%d", osd.Hostname, osd.ID)` — the deterministic node
identifier. -/
def osdNodeName (osd : OSD) : String := osd.Hostname ++ "_" ++ toString osd.ID

/-- The metadata `graphOSD` attaches to the OSD object node. -/
def osdMetadata (osd : OSD) : NodeMeta :=
  { Manager := "ceph", «Type» := "OSD", Name := osdDisplayName osd
  , payload := CephPayload.osd osd }

/-- Embeds `fmt.Sprintf("mon.%s", mon.Name)`. -/
def monDisplayName (mon : MON) : String := "mon." ++ mon.Name

/-- Embeds `fmt.Sprintf("%s_%s", mon.Hostname, mon.Name)`. -/
def monNodeName (mon : MON) : String := mon.Hostname ++ "_" ++ mon.Name

/-- The metadata `graphMon` attaches to the MON object node. -/
def monMetadata (mon : MON) : NodeMeta :=
  { Manager := "ceph", «Type» := "MON", Name := monDisplayName mon
  , payload := CephPayload.mon mon }

/-- The `if len(osd.XxxIface) > 0 { ... LookupFirstChild ...; if nil
return false }` guard blocks of `graphOSD`: `none` is the record-level
failure (declared interface not found), `some none` means no interface was
declared, `some (some i)` the resolved interface. -/
def resolveIface (lookupNode : Host) (name : String) : Option (Option Iface) :=
  if name.length > 0 then
    match findChildByName lookupNode name with
    | none => none
    | some i => some (some i)
  else some none

/-- Embeds `graphOSD` of `topology/probes/ceph/osd.go` ("Create a Node per
OSD").  Note the source order: the host lookup and BOTH interface
resolutions happen before `NewNode`, so a missing host or a declared but
unresolvable front/back interface returns `false` without creating the
object node; only then the node, its ownership link and the back/front
socket links (in that order) are created. -/
def graphOSD (env : Env) (g : GraphState) (osd : OSD) : GraphState × Bool :=
  match envLookupHost env osd.Hostname with
  | none => (g, false)
  | some lookupNode =>
    match resolveIface lookupNode osd.FrontIface with
    | none => (g, false)
    | some frontIface =>
      match resolveIface lookupNode osd.BackIface with
      | none => (g, false)
      | some backIface =>
        let g1 := addOwnershipLink (addNode g (osdNodeName osd) (osdMetadata osd))
          lookupNode.Id (osdNodeName osd)
        let g2 := match backIface with
          | some bi => addLink g1 (osdNodeName osd) bi.Id
              (EdgeMeta.socket osd.BackAddr (some "backIface"))
          | none => g1
        let g3 := match frontIface with
          | some fi => addLink g2 (osdNodeName osd) fi.Id
              (EdgeMeta.socket osd.FrontAddr (some "frontIface"))
          | none => g2
        (g3, true)

/-- Embeds `graphMon` of `topology/probes/ceph/mon.go` ("Create a Node per
Mon").  Note the source order, opposite to `graphOSD`: the object node and
its ownership link are created right after the host lookup succeeds; only
then the address is parsed and the interface resolved, so those failures
return `false` with the node already created. -/
def graphMon (env : Env) (g : GraphState) (mon : MON) : GraphState × Bool :=
  match envLookupHost env mon.Hostname with
  | none => (g, false)
  | some lookupNode =>
    let g1 := addOwnershipLink (addNode g (monNodeName mon) (monMetadata mon))
      lookupNode.Id (monNodeName mon)
    if mon.Addr.length ≤ 0 then (g1, true)
    else
      match extractMonIP mon.Addr with
      | none => (g1, false)
      | some ipStr =>
        match lookupNode.children.find? (fun i => monIfaceMatch i (parseIPv4 ipStr)) with
        | none => (g1, false)
        | some monIface =>
          (addLink g1 (monNodeName mon) monIface.Id (EdgeMeta.socket mon.Addr none), true)

/-- The graph node delivered by a node event, restricted to the three
attributes this probe reads (`n.GetField` of the `Software.Ceph.*.metadata`
keys); `none` is an absent attribute. -/
structure GNode where
  osdMeta : Option (Blob (List OSD))
  monMeta : Option (Blob (List MON))
  clusterMeta : Option (Blob CLUSTER)
deriving Repr, DecidableEq

/-- The probe state of `analyzer.go`: the tracked cluster summary and the
rendered-version ledgers (`clusters` for the OSD pass; `mons` is the ledger
the mon pass in `mon.go` uses). -/
structure Probe where
  cluster : CLUSTER
  clusters : List (String × Blob (List OSD))
  mons : List (String × Blob (List MON))
deriving Repr, DecidableEq

/-- The per-record loop body of `graphOSDs`: skip records with an empty
`Hostname`; otherwise run `graphOSD` and and-accumulate its flag into
`everythingGraphed`. -/
def osdLoopStep (env : Env) (acc : GraphState × Bool) (osd : OSD) : GraphState × Bool :=
  if osd.Hostname.length = 0 then acc
  else
    ((graphOSD env acc.1 osd).1, acc.2 && (graphOSD env acc.1 osd).2)

/-- Embeds `graphOSDs` of `topology/probes/ceph/osd.go`: short-circuit when
the ledger entry for the tracked fsid equals the blob string; otherwise
decode, walk all records best-effort, and advance the ledger only when
every non-skipped record rendered. -/
def graphOSDs (env : Env) (p : Probe) (g : GraphState) (n : GNode) :
    Probe × GraphState × Bool :=
  match n.osdMeta with
  | none => (p, g, false)
  | some metadata =>
    if ledgerGet p.clusters p.cluster.Fsid = metadata then (p, g, false)
    else
      match decodeBlob metadata with
      | none => (p, g, false)
      | some osds =>
        if osds.length > 0 then
          let res := osds.foldl (osdLoopStep env) (g, true)
          if res.2 = false then (p, res.1, false)
          else ({ p with clusters := ledgerSet p.clusters p.cluster.Fsid metadata }, res.1, true)
        else (p, g, false)

/-- The per-record loop body of `graphMons`, mirroring `osdLoopStep`. -/
def monLoopStep (env : Env) (acc : GraphState × Bool) (mon : MON) : GraphState × Bool :=
  if mon.Hostname.length = 0 then acc
  else
    ((graphMon env acc.1 mon).1, acc.2 && (graphMon env acc.1 mon).2)

/-- Embeds `graphMons` of `topology/probes/ceph/mon.go`, the monitor twin
of `graphOSDs` over the `mons` ledger.  (No function in the sources ever
calls it.) -/
def graphMons (env : Env) (p : Probe) (g : GraphState) (n : GNode) :
    Probe × GraphState × Bool :=
  match n.monMeta with
  | none => (p, g, false)
  | some metadata =>
    if ledgerGet p.mons p.cluster.Fsid = metadata then (p, g, false)
    else
      match decodeBlob metadata with
      | none => (p, g, false)
      | some mons =>
        if mons.length > 0 then
          let res := mons.foldl (monLoopStep env) (g, true)
          if res.2 = false then (p, res.1, false)
          else ({ p with mons := ledgerSet p.mons p.cluster.Fsid metadata }, res.1, true)
        else (p, g, false)

/-- Embeds `graphCluster` of `topology/probes/ceph/ceph.go`: decode the
cluster-summary attribute, if present and decodable, into the probe's
tracked `cluster` field; on any failure the probe is left unchanged. -/
def graphCluster (p : Probe) (n : GNode) : Probe :=
  match n.clusterMeta with
  | none => p
  | some metadata =>
    match decodeBlob metadata with
    | none => p
    | some cluster => { p with cluster := cluster }

/-- Embeds `(*Probe).onNodeEvent` of `analyzer.go`: refresh the tracked
cluster, bail out while its fsid is empty, then run the OSD pass.  (The
monitor pass is absent here — that is claim C5.) -/
def onNodeEvent (env : Env) (p : Probe) (g : GraphState) (n : GNode) : Probe × GraphState :=
  let p1 := graphCluster p n
  if p1.cluster.Fsid.length = 0 then (p1, g)
  else
    ((graphOSDs env p1 g n).1, (graphOSDs env p1 g n).2.1)

/-- Embeds `(*Probe).OnNodeUpdated`. -/
def OnNodeUpdated (env : Env) (p : Probe) (g : GraphState) (n : GNode) : Probe × GraphState :=
  onNodeEvent env p g n

/-- Embeds `(*Probe).OnNodeAdded`: clear the ledger entry of the currently
tracked fsid (`p.clusters[p.cluster.Fsid] = ""`), then handle the event. -/
def OnNodeAdded (env : Env) (p : Probe) (g : GraphState) (n : GNode) : Probe × GraphState :=
  onNodeEvent env { p with clusters := ledgerSet p.clusters p.cluster.Fsid Blob.empty } g n

/-- Embeds `(*Probe).OnNodeDeleted`: clear the ledger entry of the
currently tracked fsid; the deleted node itself is ignored. -/
def OnNodeDeleted (_env : Env) (p : Probe) (g : GraphState) (_n : GNode) : Probe × GraphState :=
  ({ p with clusters := ledgerSet p.clusters p.cluster.Fsid Blob.empty }, g)

/-- Whether a record's references resolve, as decided by `graphOSD` (the
outcome of its flag is independent of the accumulated graph). -/
theorem graphOSD_snd_indep (env : Env) (osd : OSD) (g g2 : GraphState) :
    (graphOSD env g osd).2 = (graphOSD env g2 osd).2 := by
  unfold graphOSD
  cases envLookupHost env osd.Hostname with
  | none => rfl
  | some lookupNode =>
    dsimp only
    cases resolveIface lookupNode osd.FrontIface with
    | none => rfl
    | some frontIface =>
      cases resolveIface lookupNode osd.BackIface with
      | none => rfl
      | some backIface => rfl

/-- Appending behavior of `graphOSD`: its effect on any starting graph is the effect
it has on the empty graph, concatenated. -/
theorem graphOSD_shift (env : Env) (osd : OSD) (g : GraphState) :
    (graphOSD env g osd).1.nodes = g.nodes ++ (graphOSD env gEmpty osd).1.nodes ∧
      (graphOSD env g osd).1.edges = g.edges ++ (graphOSD env gEmpty osd).1.edges := by
  unfold graphOSD
  cases envLookupHost env osd.Hostname with
  | none => simp [gEmpty]
  | some lookupNode =>
    dsimp only
    cases resolveIface lookupNode osd.FrontIface with
    | none => simp [gEmpty]
    | some frontIface =>
      cases resolveIface lookupNode osd.BackIface with
      | none => simp [gEmpty]
      | some backIface =>
        cases backIface with
        | none =>
          cases frontIface with
          | none => simp [addNode, addOwnershipLink, addLink, gEmpty]
          | some fi => simp [addNode, addOwnershipLink, addLink, gEmpty]
        | some bi =>
          cases frontIface with
          | none => simp [addNode, addOwnershipLink, addLink, gEmpty]
          | some fi => simp [addNode, addOwnershipLink, addLink, gEmpty]

/-- When `graphOSD` succeeds from the empty graph it creates exactly the
object node keyed `hostname_id` with the OSD metadata. -/
theorem graphOSD_creates (env : Env) (osd : OSD) (h : (graphOSD env gEmpty osd).2 = true) :
    (graphOSD env gEmpty osd).1.nodes = [(osdNodeName osd, osdMetadata osd)] := by
  revert h
  unfold graphOSD
  cases envLookupHost env osd.Hostname with
  | none => intro h; cases h
  | some lookupNode =>
    dsimp only
    cases resolveIface lookupNode osd.FrontIface with
    | none => intro h; cases h
    | some frontIface =>
      cases resolveIface lookupNode osd.BackIface with
      | none => intro h; cases h
      | some backIface =>
        intro _
        cases backIface with
        | none =>
          cases frontIface with
          | none => simp [addNode, addOwnershipLink, addLink, gEmpty]
          | some fi => simp [addNode, addOwnershipLink, addLink, gEmpty]
        | some bi =>
          cases frontIface with
          | none => simp [addNode, addOwnershipLink, addLink, gEmpty]
          | some fi => simp [addNode, addOwnershipLink, addLink, gEmpty]

/-- Every node `graphOSD` ever creates carries the `"OSD"` type tag. -/
theorem graphOSD_nodes_cases (env : Env) (osd : OSD) :
    (graphOSD env gEmpty osd).1.nodes = [] ∨
      (graphOSD env gEmpty osd).1.nodes = [(osdNodeName osd, osdMetadata osd)] := by
  unfold graphOSD
  cases envLookupHost env osd.Hostname with
  | none => exact Or.inl rfl
  | some lookupNode =>
    dsimp only
    cases resolveIface lookupNode osd.FrontIface with
    | none => exact Or.inl rfl
    | some frontIface =>
      cases resolveIface lookupNode osd.BackIface with
      | none => exact Or.inl rfl
      | some backIface =>
        right
        cases backIface with
        | none =>
          cases frontIface with
          | none => simp [addNode, addOwnershipLink, addLink, gEmpty]
          | some fi => simp [addNode, addOwnershipLink, addLink, gEmpty]
        | some bi =>
          cases frontIface with
          | none => simp [addNode, addOwnershipLink, addLink, gEmpty]
          | some fi => simp [addNode, addOwnershipLink, addLink, gEmpty]

/-- The cumulative graph effect of the `graphOSDs` record loop, with the
success flag projected away. -/
def osdFold (env : Env) (g : GraphState) (osds : List OSD) : GraphState :=
  osds.foldl (fun gg o => if o.Hostname.length = 0 then gg else (graphOSD env gg o).1) g

/-- Whether every non-skipped record of the snapshot resolves. -/
def osdAllOk (env : Env) (osds : List OSD) : Bool :=
  osds.all (fun o => o.Hostname.length == 0 || (graphOSD env gEmpty o).2)

theorem osdLoop_spec (env : Env) :
    ∀ (osds : List OSD) (g : GraphState) (b : Bool),
      osds.foldl (osdLoopStep env) (g, b) = (osdFold env g osds, b && osdAllOk env osds) := by
  intro osds
  induction osds with
  | nil => intro g b; simp [osdFold, osdAllOk]
  | cons o rest ih =>
    intro g b
    rw [List.foldl_cons]
    by_cases h : o.Hostname.length = 0
    · rw [show osdLoopStep env (g, b) o = (g, b) from by simp [osdLoopStep, h]]
      rw [ih]
      rw [show osdFold env g (o :: rest) = osdFold env g rest from by simp [osdFold, h]]
      rw [show osdAllOk env (o :: rest) = osdAllOk env rest from by simp [osdAllOk, h]]
    · rw [show osdLoopStep env (g, b) o
          = ((graphOSD env g o).1, b && (graphOSD env g o).2) from by simp [osdLoopStep, h]]
      rw [ih]
      rw [show osdFold env g (o :: rest) = osdFold env (graphOSD env g o).1 rest from by
        simp [osdFold, h]]
      have hb : (o.Hostname.length == 0) = false := by
        simp only [beq_eq_false_iff_ne, ne_eq]
        exact h
      rw [show osdAllOk env (o :: rest) = ((graphOSD env gEmpty o).2 && osdAllOk env rest) from by
        simp [osdAllOk, hb]]
      rw [graphOSD_snd_indep env o g gEmpty, Bool.and_assoc]

theorem osdFold_mono (env : Env) :
    ∀ (osds : List OSD) (g : GraphState) (x : String × NodeMeta),
      x ∈ g.nodes → x ∈ (osdFold env g osds).nodes := by
  intro osds
  induction osds with
  | nil => intro g x hx; simpa [osdFold] using hx
  | cons o rest ih =>
    intro g x hx
    by_cases h : o.Hostname.length = 0
    · rw [show osdFold env g (o :: rest) = osdFold env g rest from by simp [osdFold, h]]
      exact ih g x hx
    · rw [show osdFold env g (o :: rest) = osdFold env (graphOSD env g o).1 rest from by
        simp [osdFold, h]]
      apply ih
      rw [(graphOSD_shift env o g).1]
      exact List.mem_append_left _ hx

theorem osdFold_mem (env : Env) :
    ∀ (osds : List OSD) (g : GraphState) (o : OSD), o ∈ osds →
      o.Hostname.length > 0 → (graphOSD env gEmpty o).2 = true →
      (osdNodeName o, osdMetadata o) ∈ (osdFold env g osds).nodes := by
  intro osds
  induction osds with
  | nil => intro g o ho; simp at ho
  | cons o2 rest ih =>
    intro g o ho hlen hok
    rcases List.mem_cons.mp ho with he | hm
    · subst he
      have h : ¬ o.Hostname.length = 0 := by omega
      rw [show osdFold env g (o :: rest) = osdFold env (graphOSD env g o).1 rest from by
        simp [osdFold, h]]
      apply osdFold_mono
      rw [(graphOSD_shift env o g).1, graphOSD_creates env o hok]
      simp
    · by_cases h : o2.Hostname.length = 0
      · rw [show osdFold env g (o2 :: rest) = osdFold env g rest from by simp [osdFold, h]]
        exact ih g o hm hlen hok
      · rw [show osdFold env g (o2 :: rest) = osdFold env (graphOSD env g o2).1 rest from by
          simp [osdFold, h]]
        exact ih _ o hm hlen hok

theorem osdFold_type (env : Env) :
    ∀ (osds : List OSD) (g : GraphState) (x : String × NodeMeta),
      x ∈ (osdFold env g osds).nodes → x ∈ g.nodes ∨ x.2.«Type» = "OSD" := by
  intro osds
  induction osds with
  | nil => intro g x hx; exact Or.inl (by simpa [osdFold] using hx)
  | cons o rest ih =>
    intro g x hx
    by_cases h : o.Hostname.length = 0
    · rw [show osdFold env g (o :: rest) = osdFold env g rest from by simp [osdFold, h]] at hx
      exact ih g x hx
    · rw [show osdFold env g (o :: rest) = osdFold env (graphOSD env g o).1 rest from by
        simp [osdFold, h]] at hx
      rcases ih _ x hx with hmem | ht
      · rw [(graphOSD_shift env o g).1] at hmem
        rcases List.mem_append.mp hmem with hg | hnew
        · exact Or.inl hg
        · rcases graphOSD_nodes_cases env o with hc | hc
          · rw [hc] at hnew; simp at hnew
          · rw [hc] at hnew
            simp only [List.mem_singleton] at hnew
            subst hnew
            exact Or.inr rfl
      · exact Or.inr ht

/-- The flag `graphMon` returns does not depend on the accumulated graph. -/
theorem graphMon_snd_indep (env : Env) (mon : MON) (g g2 : GraphState) :
    (graphMon env g mon).2 = (graphMon env g2 mon).2 := by
  unfold graphMon
  cases envLookupHost env mon.Hostname with
  | none => rfl
  | some lookupNode =>
    dsimp only
    by_cases ha : mon.Addr.length ≤ 0
    · simp [ha]
    · simp only [if_neg ha]
      cases extractMonIP mon.Addr with
      | none => rfl
      | some ipStr =>
        dsimp only
        cases lookupNode.children.find? (fun i => monIfaceMatch i (parseIPv4 ipStr)) with
        | none => rfl
        | some monIface => rfl

/-- Appending behavior of `graphMon`: its effect on any starting graph is its effect
on the empty graph, concatenated. -/
theorem graphMon_shift (env : Env) (mon : MON) (g : GraphState) :
    (graphMon env g mon).1.nodes = g.nodes ++ (graphMon env gEmpty mon).1.nodes ∧
      (graphMon env g mon).1.edges = g.edges ++ (graphMon env gEmpty mon).1.edges := by
  unfold graphMon
  cases envLookupHost env mon.Hostname with
  | none => simp [gEmpty]
  | some lookupNode =>
    dsimp only
    by_cases ha : mon.Addr.length ≤ 0
    · simp [ha, addNode, addOwnershipLink, addLink, gEmpty]
    · simp only [if_neg ha]
      cases extractMonIP mon.Addr with
      | none => simp [addNode, addOwnershipLink, addLink, gEmpty]
      | some ipStr =>
        dsimp only
        cases lookupNode.children.find? (fun i => monIfaceMatch i (parseIPv4 ipStr)) with
        | none => simp [addNode, addOwnershipLink, addLink, gEmpty]
        | some monIface => simp [addNode, addOwnershipLink, addLink, gEmpty]

/-- The cumulative graph effect of the `graphMons` record loop. -/
def monFold (env : Env) (g : GraphState) (mons : List MON) : GraphState :=
  mons.foldl (fun gg m => if m.Hostname.length = 0 then gg else (graphMon env gg m).1) g

/-- Whether every non-skipped monitor record of the snapshot resolves. -/
def monAllOk (env : Env) (mons : List MON) : Bool :=
  mons.all (fun m => m.Hostname.length == 0 || (graphMon env gEmpty m).2)

theorem monLoop_spec (env : Env) :
    ∀ (mons : List MON) (g : GraphState) (b : Bool),
      mons.foldl (monLoopStep env) (g, b) = (monFold env g mons, b && monAllOk env mons) := by
  intro mons
  induction mons with
  | nil => intro g b; simp [monFold, monAllOk]
  | cons m rest ih =>
    intro g b
    rw [List.foldl_cons]
    by_cases h : m.Hostname.length = 0
    · rw [show monLoopStep env (g, b) m = (g, b) from by simp [monLoopStep, h]]
      rw [ih]
      rw [show monFold env g (m :: rest) = monFold env g rest from by simp [monFold, h]]
      rw [show monAllOk env (m :: rest) = monAllOk env rest from by simp [monAllOk, h]]
    · rw [show monLoopStep env (g, b) m
          = ((graphMon env g m).1, b && (graphMon env g m).2) from by simp [monLoopStep, h]]
      rw [ih]
      rw [show monFold env g (m :: rest) = monFold env (graphMon env g m).1 rest from by
        simp [monFold, h]]
      have hb : (m.Hostname.length == 0) = false := by
        simp only [beq_eq_false_iff_ne, ne_eq]
        exact h
      rw [show monAllOk env (m :: rest) = ((graphMon env gEmpty m).2 && monAllOk env rest) from by
        simp [monAllOk, hb]]
      rw [graphMon_snd_indep env m g gEmpty, Bool.and_assoc]

/-- The OSD pass never touches the `mons` ledger or the tracked cluster. -/
theorem graphOSDs_frame (env : Env) (p : Probe) (g : GraphState) (n : GNode) :
    (graphOSDs env p g n).1.mons = p.mons ∧ (graphOSDs env p g n).1.cluster = p.cluster := by
  unfold graphOSDs
  cases n.osdMeta with
  | none => exact ⟨rfl, rfl⟩
  | some metadata =>
    dsimp only
    by_cases he : ledgerGet p.clusters p.cluster.Fsid = metadata
    · simp [he]
    · simp only [if_neg he]
      cases decodeBlob metadata with
      | none => exact ⟨rfl, rfl⟩
      | some osds =>
        dsimp only
        by_cases hl : osds.length > 0
        · simp only [if_pos hl]
          by_cases hr : (osds.foldl (osdLoopStep env) (g, true)).2 = false
          · simp [hr]
          · simp [hr]
        · simp [hl]

/-- Every node the OSD pass adds to the graph carries the `"OSD"` type. -/
theorem graphOSDs_type (env : Env) (p : Probe) (g : GraphState) (n : GNode) :
    ∀ x : String × NodeMeta, x ∈ (graphOSDs env p g n).2.1.nodes →
      x ∈ g.nodes ∨ x.2.«Type» = "OSD" := by
  unfold graphOSDs
  cases n.osdMeta with
  | none => exact fun x hx => Or.inl hx
  | some metadata =>
    dsimp only
    by_cases he : ledgerGet p.clusters p.cluster.Fsid = metadata
    · simp only [if_pos he]
      exact fun x hx => Or.inl hx
    · simp only [if_neg he]
      cases decodeBlob metadata with
      | none => exact fun x hx => Or.inl hx
      | some osds =>
        dsimp only
        by_cases hl : osds.length > 0
        · simp only [if_pos hl, osdLoop_spec env osds g true]
          by_cases hr : (true && osdAllOk env osds) = false
          · simp only [if_pos hr]
            exact fun x hx => osdFold_type env osds g x hx
          · simp only [if_neg hr]
            exact fun x hx => osdFold_type env osds g x hx
        · simp only [if_neg hl]
          exact fun x hx => Or.inl hx

/-- Frame property: `graphCluster` only refreshes the tracked cluster summary. -/
theorem graphCluster_frame (p : Probe) (n : GNode) :
    (graphCluster p n).clusters = p.clusters ∧ (graphCluster p n).mons = p.mons := by
  unfold graphCluster
  cases n.clusterMeta with
  | none => exact ⟨rfl, rfl⟩
  | some metadata =>
    dsimp only
    cases decodeBlob metadata with
    | none => exact ⟨rfl, rfl⟩
    | some cluster => exact ⟨rfl, rfl⟩

theorem osdFold_all_empty (env : Env) :
    ∀ (osds : List OSD) (g : GraphState), (∀ o ∈ osds, o.Hostname.length = 0) →
      osdFold env g osds = g := by
  intro osds
  induction osds with
  | nil => intro g _; rfl
  | cons o rest ih =>
    intro g h
    have h0 := h o (List.mem_cons_self _ _)
    rw [show osdFold env g (o :: rest) = osdFold env g rest from by simp [osdFold, h0]]
    exact ih g (fun x hx => h x (List.mem_cons_of_mem _ hx))

/-- C2: atomicity of the OSD render pass.  When the observed blob differs
from the ledger entry and some non-skipped record fails to resolve, the
pass still walks every record (the final graph is the full best-effort
fold, and every resolvable record's object node is materialized in it), it
reports failure, the probe state — in particular the ledger — is left
completely untouched, and the ledger entry therefore still differs from
the blob, so an identical observation re-attempts all records. -/
theorem c2_atomicity (env : Env) (p : Probe) (g : GraphState) (n : GNode)
    (osds : List OSD)
    (hmeta : n.osdMeta = some (Blob.ok osds))
    (hdiff : ledgerGet p.clusters p.cluster.Fsid ≠ Blob.ok osds)
    (hfail : ∃ o ∈ osds, o.Hostname.length > 0 ∧ (graphOSD env gEmpty o).2 = false) :
    graphOSDs env p g n = (p, osdFold env g osds, false) ∧
      (∀ o ∈ osds, o.Hostname.length > 0 → (graphOSD env gEmpty o).2 = true →
        (osdNodeName o, osdMetadata o) ∈ (osdFold env g osds).nodes) ∧
      ledgerGet (graphOSDs env p g n).1.clusters p.cluster.Fsid ≠ Blob.ok osds := by
  obtain ⟨o0, ho0, hlen0, hfl0⟩ := hfail
  have hlen : osds.length > 0 := List.length_pos.mpr (List.ne_nil_of_mem ho0)
  have hallok : osdAllOk env osds = false := by
    cases hx : osdAllOk env osds with
    | false => rfl
    | true =>
      exfalso
      rw [osdAllOk, List.all_eq_true] at hx
      have h2 := hx o0 ho0
      rw [hfl0] at h2
      simp only [Bool.or_false, beq_iff_eq] at h2
      omega
  have hmain : graphOSDs env p g n = (p, osdFold env g osds, false) := by
    unfold graphOSDs
    rw [hmeta]
    dsimp only
    rw [if_neg hdiff]
    dsimp only [decodeBlob]
    rw [if_pos hlen, osdLoop_spec env osds g true]
    dsimp only
    rw [Bool.true_and, hallok]
    simp
  refine ⟨hmain, ?_, ?_⟩
  · intro o ho hl hk
    exact osdFold_mem env osds g o ho hl hk
  · rw [hmain]
    exact hdiff

/-- C2: concrete carrier — snapshot of two records on hosts `h1`/`h2` where
only `h2` exists in the graph. -/
def c2osdA : OSD := { emptyOSD with Hostname := "h1", ID := 1 }

/-- C2: the record whose host resolves. -/
def c2osdB : OSD := { emptyOSD with Hostname := "h2", ID := 2 }

/-- C2: environment holding only host `h2`. -/
def c2env : Env := { hosts := [{ Id := "hostB", Name := "h2", «Type» := "host", children := [] }] }

/-- C2: probe tracking fsid `f1` with an empty ledger. -/
def c2probe : Probe := { cluster := { Fsid := "f1" }, clusters := [], mons := [] }

/-- C2: the event node carrying the two-record snapshot. -/
def c2node : GNode := { osdMeta := some (Blob.ok [c2osdA, c2osdB]), monMeta := none, clusterMeta := none }

/-- C2: witness for `c2_atomicity` — record `c2osdA` fails (host `h1`
missing), `c2osdB` renders; the pass returns the full fold with the probe
untouched. -/
theorem c2_atomicity_wit :
    (ledgerGet c2probe.clusters c2probe.cluster.Fsid ≠ Blob.ok [c2osdA, c2osdB]) ∧
      graphOSDs c2env c2probe gEmpty c2node
        = (c2probe, osdFold c2env gEmpty [c2osdA, c2osdB], false) :=
  ⟨by decide,
    (c2_atomicity c2env c2probe gEmpty c2node [c2osdA, c2osdB] rfl (by decide) (by decide)).1⟩

/-- C7: records with an empty host-identifying field are skipped silently
in both render passes: with a fresh blob, a non-empty snapshot whose
non-skipped records all resolve renders successfully and advances the
ledger (first two conjuncts) — in particular a snapshot consisting only of
empty-hostname records still advances it — and empty-hostname records
contribute nothing to the graph (third conjunct). -/
theorem c7_empty_host_skip (env : Env) (p : Probe) (g : GraphState) (n : GNode)
    (osds : List OSD) (mons : List MON)
    (hometa : n.osdMeta = some (Blob.ok osds))
    (hmmeta : n.monMeta = some (Blob.ok mons))
    (hodiff : ledgerGet p.clusters p.cluster.Fsid ≠ Blob.ok osds)
    (hmdiff : ledgerGet p.mons p.cluster.Fsid ≠ Blob.ok mons)
    (holen : osds ≠ [])
    (hmlen : mons ≠ [])
    (hook : ∀ o ∈ osds, o.Hostname.length > 0 → (graphOSD env gEmpty o).2 = true)
    (hmok : ∀ m ∈ mons, m.Hostname.length > 0 → (graphMon env gEmpty m).2 = true) :
    graphOSDs env p g n
      = ({ p with clusters := ledgerSet p.clusters p.cluster.Fsid (Blob.ok osds) },
          osdFold env g osds, true) ∧
    graphMons env p g n
      = ({ p with mons := ledgerSet p.mons p.cluster.Fsid (Blob.ok mons) },
          monFold env g mons, true) ∧
    ((∀ o ∈ osds, o.Hostname.length = 0) → osdFold env g osds = g) := by
  have hallok : osdAllOk env osds = true := by
    rw [osdAllOk, List.all_eq_true]
    intro o ho
    by_cases h : o.Hostname.length = 0
    · simp [h]
    · have h2 := hook o ho (by omega)
      simp [h2]
  have hmallok : monAllOk env mons = true := by
    rw [monAllOk, List.all_eq_true]
    intro m hm
    by_cases h : m.Hostname.length = 0
    · simp [h]
    · have h2 := hmok m hm (by omega)
      simp [h2]
  refine ⟨?_, ?_, osdFold_all_empty env osds g⟩
  · unfold graphOSDs
    rw [hometa]
    dsimp only
    rw [if_neg hodiff]
    dsimp only [decodeBlob]
    rw [if_pos (List.length_pos.mpr holen), osdLoop_spec env osds g true]
    dsimp only
    rw [Bool.true_and, hallok]
    simp
  · unfold graphMons
    rw [hmmeta]
    dsimp only
    rw [if_neg hmdiff]
    dsimp only [decodeBlob]
    rw [if_pos (List.length_pos.mpr hmlen), monLoop_spec env mons g true]
    dsimp only
    rw [Bool.true_and, hmallok]
    simp

/-- C7: a snapshot holding only records with empty host fields. -/
def c7node : GNode :=
  { osdMeta := some (Blob.ok [emptyOSD]), monMeta := some (Blob.ok [emptyMON])
  , clusterMeta := none }

/-- C7: probe tracking fsid `f1` with empty ledgers. -/
def c7probe : Probe := { cluster := { Fsid := "f1" }, clusters := [], mons := [] }

/-- C7: environment with no hosts at all (irrelevant: every record is
skipped). -/
def c7env : Env := { hosts := [] }

/-- C7: witness for `c7_empty_host_skip` — a snapshot of only
empty-hostname records renders "successfully": no node is created and the
ledger still advances. -/
theorem c7_empty_host_skip_wit :
    (ledgerGet c7probe.clusters c7probe.cluster.Fsid ≠ Blob.ok [emptyOSD]) ∧
      graphOSDs c7env c7probe gEmpty c7node
        = ({ c7probe with clusters := ledgerSet c7probe.clusters "f1" (Blob.ok [emptyOSD]) },
            osdFold c7env gEmpty [emptyOSD], true) ∧
      osdFold c7env gEmpty [emptyOSD] = gEmpty :=
  ⟨by decide,
    (c7_empty_host_skip c7env c7probe gEmpty c7node [emptyOSD] [emptyMON] rfl rfl
      (by decide) (by decide) (by decide) (by decide) (by decide) (by decide)).1,
    (c7_empty_host_skip c7env c7probe gEmpty c7node [emptyOSD] [emptyMON] rfl rfl
      (by decide) (by decide) (by decide) (by decide) (by decide) (by decide)).2.2
      (by decide)⟩

/-- C3: environment holding host `h1` with no child interfaces. -/
def c3env : Env := { hosts := [{ Id := "hostA", Name := "h1", «Type» := "host", children := [] }] }

/-- C3: an OSD record on the resolvable host `h1` declaring a front
interface `eth9` that does not exist under it. -/
def c3osd : OSD :=
  { emptyOSD with Hostname := "h1", ID := 3, FrontIface := "eth9", FrontAddr := "10.0.0.3:6801/0" }

/-- C3: counterexample.  For a storage-daemon record whose host resolves
but whose declared interface does not, `graphOSD` returns failure WITHOUT
creating the object node (the graph is unchanged): the interface guards
run before `NewNode`.  This refutes the claim that the node is still
created "for every object kind (storage daemon and monitor alike)". -/
theorem c3_counterexample :
    envLookupHost c3env c3osd.Hostname
        = some { Id := "hostA", Name := "h1", «Type» := "host", children := [] } ∧
      graphOSD c3env gEmpty c3osd = (gEmpty, false) :=
  ⟨rfl, rfl⟩

/-- C3 (amended): the create-then-fail behavior holds only for monitors —
`graphMon` creates the object node and its ownership edge before the
address/interface resolution, so an unresolvable interface leaves the node
present, partially linked, with the record counted as failed; for storage
daemons `graphOSD` checks the declared interfaces first and returns
failure with no node and no edge at all. -/
theorem c3_amended (env : Env) (g : GraphState) (mon : MON) (osd : OSD)
    (hostM hostO : Host)
    (hmh : envLookupHost env mon.Hostname = some hostM)
    (hma : mon.Addr.length > 0)
    (hmf : ∀ ipStr, extractMonIP mon.Addr = some ipStr →
        hostM.children.find? (fun i => monIfaceMatch i (parseIPv4 ipStr)) = none)
    (hoh : envLookupHost env osd.Hostname = some hostO)
    (hof : osd.FrontIface.length > 0)
    (hofind : findChildByName hostO osd.FrontIface = none) :
    graphMon env g mon
      = (addOwnershipLink (addNode g (monNodeName mon) (monMetadata mon))
          hostM.Id (monNodeName mon), false) ∧
    graphOSD env g osd = (g, false) := by
  constructor
  · unfold graphMon
    rw [hmh]
    dsimp only
    rw [if_neg (by omega : ¬ mon.Addr.length ≤ 0)]
    cases hext : extractMonIP mon.Addr with
    | none => rfl
    | some ipStr =>
      dsimp only
      rw [hmf ipStr hext]
  · unfold graphOSD
    rw [hoh]
    dsimp only
    rw [show resolveIface hostO osd.FrontIface = none from by
      rw [resolveIface, if_pos hof, hofind]]

/-- C3: a monitor record on host `h1` whose address extracts but matches
no interface (the host has no children). -/
def c3mon : MON :=
  { emptyMON with Hostname := "h1", Name := "a", Addr := "10.0.0.5:6789/0" }

/-- C3: witness for `c3_amended` — monitor node created then marked
failed; OSD record leaves the graph untouched. -/
theorem c3_amended_wit :
    c3mon.Addr.length > 0 ∧ c3osd.FrontIface.length > 0 ∧
      graphMon c3env gEmpty c3mon
        = (addOwnershipLink (addNode gEmpty (monNodeName c3mon) (monMetadata c3mon))
            "hostA" (monNodeName c3mon), false) ∧
      graphOSD c3env gEmpty c3osd = (gEmpty, false) :=
  ⟨by decide, by decide,
    (c3_amended c3env gEmpty c3mon c3osd
      { Id := "hostA", Name := "h1", «Type» := "host", children := [] }
      { Id := "hostA", Name := "h1", «Type» := "host", children := [] }
      rfl (by decide) (by decide) rfl (by decide) rfl).1,
    (c3_amended c3env gEmpty c3mon c3osd
      { Id := "hostA", Name := "h1", «Type» := "host", children := [] }
      { Id := "hostA", Name := "h1", «Type» := "host", children := [] }
      rfl (by decide) (by decide) rfl (by decide) rfl).2⟩

/-- C4: the rendered record, on host `h1`. -/
def c4osd : OSD := { emptyOSD with Hostname := "h1", ID := 1 }

/-- C4: environment holding host `h1`. -/
def c4env : Env := { hosts := [{ Id := "hostA", Name := "h1", «Type» := "host", children := [] }] }

/-- C4: the blob of the fully rendered snapshot. -/
def c4blob : Blob (List OSD) := Blob.ok [c4osd]

/-- C4: probe state after a fully successful render of `c4blob` for fsid
`f1` (the ledger records the blob). -/
def c4probe : Probe := { cluster := { Fsid := "f1" }, clusters := [("f1", c4blob)], mons := [] }

/-- C4: a second observation carrying the byte-identical blob. -/
def c4node : GNode := { osdMeta := some c4blob, monMeta := none, clusterMeta := none }

/-- C4: counterexample.  The ledger holds exactly the observed blob
(first conjunct); delivering the identical observation via `OnNodeUpdated`
indeed short-circuits (second conjunct), but via `OnNodeAdded` the handler
first clears the ledger entry for the tracked identity, so the very same
blob is fully re-rendered and the object node is created again (third
conjunct) — re-rendering is NOT idempotent "regardless of which event
delivers the second observation". -/
theorem c4_counterexample :
    ledgerGet c4probe.clusters "f1" = c4blob ∧
      OnNodeUpdated c4env c4probe gEmpty c4node = (c4probe, gEmpty) ∧
      (OnNodeAdded c4env c4probe gEmpty c4node).2.nodes
        = [(osdNodeName c4osd, osdMetadata c4osd)] :=
  ⟨rfl, rfl, rfl⟩

/-- C4 (amended): the short-circuit holds for `OnNodeUpdated`: when the
blob observed equals the ledger entry for the tracked (non-empty) fsid,
the handler returns with the graph untouched and the probe merely
refreshed by `graphCluster` — no node, no edge, no ledger write.
(`OnNodeAdded` instead clears the tracked entry first and re-renders, as
the counterexample shows.) -/
theorem c4_amended (env : Env) (p : Probe) (g : GraphState) (n : GNode) (osds : List OSD)
    (hmeta : n.osdMeta = some (Blob.ok osds))
    (hfsid : (graphCluster p n).cluster.Fsid.length > 0)
    (hledg : ledgerGet p.clusters (graphCluster p n).cluster.Fsid = Blob.ok osds) :
    OnNodeUpdated env p g n = (graphCluster p n, g) := by
  unfold OnNodeUpdated onNodeEvent
  rw [if_neg (by omega : ¬ (graphCluster p n).cluster.Fsid.length = 0)]
  have hsh : graphOSDs env (graphCluster p n) g n = (graphCluster p n, g, false) := by
    unfold graphOSDs
    rw [hmeta]
    dsimp only
    rw [(graphCluster_frame p n).1, if_pos hledg]
  rw [hsh]

/-- C4: witness for `c4_amended` at the concrete second observation. -/
theorem c4_amended_wit :
    (graphCluster c4probe c4node).cluster.Fsid.length > 0 ∧
      ledgerGet c4probe.clusters (graphCluster c4probe c4node).cluster.Fsid = Blob.ok [c4osd] ∧
      OnNodeUpdated c4env c4probe gEmpty c4node = (graphCluster c4probe c4node, gEmpty) :=
  ⟨by decide, by decide,
    c4_amended c4env c4probe gEmpty c4node [c4osd] rfl (by decide) (by decide)⟩

/-- C5: a renderable monitor record on host `h1`. -/
def c5mon : MON := { emptyMON with Hostname := "h1", Name := "a" }

/-- C5: environment holding host `h1`. -/
def c5env : Env := { hosts := [{ Id := "hostA", Name := "h1", «Type» := "host", children := [] }] }

/-- C5: probe with a tracked cluster and empty ledgers. -/
def c5probe : Probe := { cluster := { Fsid := "f1" }, clusters := [], mons := [] }

/-- C5: an event node carrying ONLY a monitor snapshot attribute. -/
def c5node : GNode :=
  { osdMeta := none, monMeta := some (Blob.ok [c5mon]), clusterMeta := none }

/-- C5: counterexample.  A node event whose node carries a perfectly
renderable monitor snapshot leaves the graph untouched (first conjunct):
`onNodeEvent` runs only the cluster and OSD passes.  The monitor pass
`graphMons` exists and would render the record into an object node with
success (second and third conjuncts), but nothing calls it. -/
theorem c5_counterexample :
    onNodeEvent c5env c5probe gEmpty c5node = (c5probe, gEmpty) ∧
      (graphMons c5env c5probe gEmpty c5node).2.1.nodes
        = [(monNodeName c5mon, monMetadata c5mon)] ∧
      (graphMons c5env c5probe gEmpty c5node).2.2 = true :=
  ⟨rfl, rfl, rfl⟩

/-- C5 (amended): on every node create/update event the synchronizer
executes only the cluster-summary decode and the storage-daemon pass: the
monitor ledger is never touched and every node the event adds to the graph
is an OSD object node — no monitor record is ever rendered from the event
path. -/
theorem c5_amended (env : Env) (p : Probe) (g : GraphState) (n : GNode) :
    (onNodeEvent env p g n).1.mons = p.mons ∧
      (∀ x : String × NodeMeta, x ∈ (onNodeEvent env p g n).2.nodes →
        x ∈ g.nodes ∨ x.2.«Type» = "OSD") := by
  unfold onNodeEvent
  by_cases hf : (graphCluster p n).cluster.Fsid.length = 0
  · rw [if_pos hf]
    exact ⟨(graphCluster_frame p n).2, fun x hx => Or.inl hx⟩
  · rw [if_neg hf]
    constructor
    · rw [(graphOSDs_frame env (graphCluster p n) g n).1, (graphCluster_frame p n).2]
    · exact fun x hx => graphOSDs_type env (graphCluster p n) g n x hx

/-- C5: witness for `c5_amended` at the monitor-only event. -/
theorem c5_amended_wit :
    (onNodeEvent c5env c5probe gEmpty c5node).1.mons = c5probe.mons :=
  (c5_amended c5env c5probe gEmpty c5node).1

/-- C6: resolution of a monitor's interface by address.  When the host
resolves, the address yields an IP, and filtering the host's children for
device-typed, non-loopback interfaces whose IPv4 range contains that IP
finds one, `graphMon` reports success and creates exactly the object node,
its ownership edge, and the socket edge (tagged with the full observed
address) to the resolved interface. -/
theorem c6_mon_iface_link (env : Env) (g : GraphState) (mon : MON) (host : Host)
    (iface : Iface) (ipStr : String)
    (hh : envLookupHost env mon.Hostname = some host)
    (ha : mon.Addr.length > 0)
    (hip : extractMonIP mon.Addr = some ipStr)
    (hfind : host.children.find? (fun i => monIfaceMatch i (parseIPv4 ipStr)) = some iface) :
    graphMon env g mon
      = (addLink
          (addOwnershipLink (addNode g (monNodeName mon) (monMetadata mon))
            host.Id (monNodeName mon))
          (monNodeName mon) iface.Id (EdgeMeta.socket mon.Addr none), true) := by
  unfold graphMon
  rw [hh]
  dsimp only
  rw [if_neg (by omega : ¬ mon.Addr.length ≤ 0), hip]
  dsimp only
  rw [hfind]

/-- C6: the interface of the specification's example, `eth0` holding
`10.0.0.5/24`. -/
def c6iface : Iface :=
  { Id := "if0", Name := "eth0", «Type» := "device", EncapType := "ether"
  , IPV4 := ["10.0.0.5/24"] }

/-- C6: host `h1` owning `eth0`. -/
def c6host : Host := { Id := "hostA", Name := "h1", «Type» := "host", children := [c6iface] }

/-- C6: the surrounding graph. -/
def c6env : Env := { hosts := [c6host] }

/-- C6: the monitor of the specification's example, bound to
`10.0.0.5:6789/0`. -/
def c6mon : MON := { emptyMON with Hostname := "h1", Name := "a", Addr := "10.0.0.5:6789/0" }

/-- C6: witness for `c6_mon_iface_link` on the spec's example: the address
`10.0.0.5:6789/0` extracts to `10.0.0.5`, which lies in `10.0.0.5/24`, so
the monitor is linked to `eth0`. -/
theorem c6_mon_iface_link_wit :
    extractMonIP c6mon.Addr = some "10.0.0.5" ∧
      c6host.children.find? (fun i => monIfaceMatch i (parseIPv4 "10.0.0.5")) = some c6iface ∧
      graphMon c6env gEmpty c6mon
        = (addLink
            (addOwnershipLink (addNode gEmpty (monNodeName c6mon) (monMetadata c6mon))
              c6host.Id (monNodeName c6mon))
            (monNodeName c6mon) c6iface.Id (EdgeMeta.socket c6mon.Addr none), true) :=
  ⟨by decide, by decide,
    c6_mon_iface_link c6env gEmpty c6mon c6host c6iface "10.0.0.5"
      rfl (by decide) (by decide) (by decide)⟩

/-- C8: the record of the second cluster `f2`, on host `h2`. -/
def c8osd2 : OSD := { emptyOSD with Hostname := "h2", ID := 2 }

/-- C8: the record of the tracked cluster `f1`, on host `h1`. -/
def c8osd1 : OSD := { emptyOSD with Hostname := "h1", ID := 1 }

/-- C8: the fully rendered blob of cluster `f2`. -/
def c8blob2 : Blob (List OSD) := Blob.ok [c8osd2]

/-- C8: probe tracking `f1`, with both `f1` and `f2` fully rendered. -/
def c8probe : Probe :=
  { cluster := { Fsid := "f1" }
  , clusters := [("f1", Blob.ok [c8osd1]), ("f2", c8blob2)], mons := [] }

/-- C8: the deleted host node — it belongs to cluster `f2` (its
cluster-summary attribute names fsid `f2`). -/
def c8delNode : GNode :=
  { osdMeta := none, monMeta := none, clusterMeta := some (Blob.ok { Fsid := "f2" }) }

/-- C8: an empty surrounding graph. -/
def c8env : Env := { hosts := [] }

/-- C8: a probe later tracking `f2` with the ledger as the deletion left
it. -/
def c8probe2 : Probe :=
  { cluster := { Fsid := "f2" }
  , clusters := (OnNodeDeleted c8env c8probe gEmpty c8delNode).1.clusters, mons := [] }

/-- C8: a subsequent observation for `f2`, byte-identical to its rendered
blob. -/
def c8node2 : GNode := { osdMeta := some c8blob2, monMeta := none, clusterMeta := none }

/-- C8: counterexample.  Deleting a host node of cluster `f2` while the
probe tracks `f1` clears `f1`'s ledger entry, not `f2`'s (first and second
conjuncts); a subsequent observation for `f2` with the byte-identical blob
therefore still short-circuits instead of being re-rendered (third
conjunct), refuting the claim that the entry of the DELETED node's
identity is cleared. -/
theorem c8_counterexample :
    ledgerGet (OnNodeDeleted c8env c8probe gEmpty c8delNode).1.clusters "f2" = c8blob2 ∧
      ledgerGet (OnNodeDeleted c8env c8probe gEmpty c8delNode).1.clusters "f1" = Blob.empty ∧
      graphOSDs c8env c8probe2 gEmpty c8node2 = (c8probe2, gEmpty, false) :=
  ⟨rfl, rfl, rfl⟩

/-- C8 (amended): `OnNodeDeleted` ignores the deleted node entirely and
clears the ledger entry of the CURRENTLY TRACKED identity (first
conjunct); for that identity — the deleted host's cluster in the intended
single-cluster operation — no blob can short-circuit afterwards, so the
next observation is fully re-rendered (second conjunct). -/
theorem c8_amended (env : Env) (p : Probe) (g : GraphState) (n : GNode) :
    OnNodeDeleted env p g n
      = ({ p with clusters := ledgerSet p.clusters p.cluster.Fsid Blob.empty }, g) ∧
      (∀ osds : List OSD,
        ledgerGet (OnNodeDeleted env p g n).1.clusters p.cluster.Fsid ≠ Blob.ok osds) := by
  refine ⟨rfl, ?_⟩
  intro osds
  show ledgerGet (ledgerSet p.clusters p.cluster.Fsid Blob.empty) p.cluster.Fsid ≠ _
  rw [ledgerGet_set, if_pos rfl]
  intro h
  cases h

/-- C8: witness for `c8_amended` at the concrete deletion event. -/
theorem c8_amended_wit :
    OnNodeDeleted c8env c8probe gEmpty c8delNode
      = ({ c8probe with clusters := ledgerSet c8probe.clusters "f1" Blob.empty }, gEmpty) ∧
      ledgerGet (OnNodeDeleted c8env c8probe gEmpty c8delNode).1.clusters "f1"
        ≠ Blob.ok [c8osd1] :=
  ⟨(c8_amended c8env c8probe gEmpty c8delNode).1,
    (c8_amended c8env c8probe gEmpty c8delNode).2 [c8osd1]⟩

/-- The tracked cluster after `graphCluster` does not depend on the rest of
the probe state. -/
theorem graphCluster_congr (p1 p2 : Probe) (n : GNode) (h : p1.cluster = p2.cluster) :
    (graphCluster p1 n).cluster = (graphCluster p2 n).cluster := by
  unfold graphCluster
  cases n.clusterMeta with
  | none => exact h
  | some metadata =>
    dsimp only
    cases decodeBlob metadata with
    | none => exact h
    | some cluster => rfl

/-- C10: while the tracked cluster identity stays empty (no
cluster-summary attribute has yet decoded to a non-empty fsid, including
on this very event), every node event returns without rendering any
daemon record: the update path leaves the graph untouched, the added and
deleted paths leave the graph untouched and the ledger extensionally
unchanged (their write of the empty entry for the empty identity stores
the value a missing key already reads as). -/
theorem c10_cluster_gate (env : Env) (p : Probe) (g : GraphState) (n : GNode)
    (hbefore : p.cluster.Fsid = "")
    (hafter : (graphCluster p n).cluster.Fsid = "")
    (hzero : ledgerGet p.clusters "" = Blob.empty) :
    OnNodeUpdated env p g n = (graphCluster p n, g) ∧
      (OnNodeAdded env p g n).2 = g ∧
      (∀ k, ledgerGet (OnNodeAdded env p g n).1.clusters k = ledgerGet p.clusters k) ∧
      (OnNodeDeleted env p g n).2 = g ∧
      (∀ k, ledgerGet (OnNodeDeleted env p g n).1.clusters k = ledgerGet p.clusters k) := by
  have hlen : (graphCluster p n).cluster.Fsid.length = 0 := by rw [hafter]; rfl
  have hup : OnNodeUpdated env p g n = (graphCluster p n, g) := by
    unfold OnNodeUpdated onNodeEvent
    rw [if_pos hlen]
  have hpa : OnNodeAdded env p g n
      = (graphCluster { p with clusters := ledgerSet p.clusters "" Blob.empty } n, g) := by
    unfold OnNodeAdded onNodeEvent
    rw [hbefore]
    rw [if_pos (by
      rw [show (graphCluster { p with clusters := ledgerSet p.clusters "" Blob.empty } n).cluster
          = (graphCluster p n).cluster from graphCluster_congr _ _ n rfl]
      exact hlen)]
  refine ⟨hup, ?_, ?_, rfl, ?_⟩
  · rw [hpa]
  · intro k
    rw [hpa]
    rw [(graphCluster_frame { p with clusters := ledgerSet p.clusters "" Blob.empty } n).1]
    show ledgerGet (ledgerSet p.clusters "" Blob.empty) k = _
    rw [ledgerGet_set]
    by_cases hk : "" = k
    · rw [if_pos hk, ← hk, hzero]
    · rw [if_neg hk]
  · intro k
    show ledgerGet (ledgerSet p.clusters p.cluster.Fsid Blob.empty) k = _
    rw [hbefore, ledgerGet_set]
    by_cases hk : "" = k
    · rw [if_pos hk, ← hk, hzero]
    · rw [if_neg hk]

/-- C10: probe with no tracked cluster yet. -/
def c10probe : Probe := { cluster := { Fsid := "" }, clusters := [], mons := [] }

/-- C10: an event node carrying a renderable daemon snapshot but no
cluster summary. -/
def c10node : GNode :=
  { osdMeta := some (Blob.ok [{ emptyOSD with Hostname := "h1", ID := 1 }])
  , monMeta := none, clusterMeta := none }

/-- C10: environment holding host `h1` (the snapshot would render if the
pass ran). -/
def c10env : Env := { hosts := [{ Id := "hostA", Name := "h1", «Type» := "host", children := [] }] }

/-- C10: witness for `c10_cluster_gate` — with no tracked identity, the
event with a renderable daemon snapshot produces nothing. -/
theorem c10_cluster_gate_wit :
    c10probe.cluster.Fsid = "" ∧
      OnNodeUpdated c10env c10probe gEmpty c10node = (graphCluster c10probe c10node, gEmpty) ∧
      (OnNodeAdded c10env c10probe gEmpty c10node).2 = gEmpty :=
  ⟨rfl,
    (c10_cluster_gate c10env c10probe gEmpty c10node rfl rfl rfl).1,
    (c10_cluster_gate c10env c10probe gEmpty c10node rfl rfl rfl).2.1⟩
